import Mathlib

/-!
Verification development for the acmeapi Go package (ACME client engine).

Each Go function relevant to the claims is shallowly embedded as a Lean
definition translated from the source in src/.  Machine-level concerns
(HTTP transport, JOSE signing, JSON text escaping) appear as explicit
parameters or small models, documented at each definition.
-/

deriving instance DecidableEq for Except

namespace AcmeApi

/-- ASCII lowercasing, character by character (the uses below compare against
ASCII-only constants, where Go `strings.ToLower` agrees). -/
def strToLower (s : String) : String := String.mk (s.toList.map Char.toLower)

/- ## Basic data model (types.go / part_001) -/

/-- RFC7807 problem document, from the `Problem` struct.  Only the fields the
claims inspect are carried; `type` is the problem type URI. -/
structure Problem where
  type : String
  title : String
  status : Nat
  detail : String
deriving Repr, DecidableEq

/-- An HTTP response as observed by the client code after transport:
status code and response headers (an association list, first match wins,
mirroring `http.Header.Get`). -/
structure Response where
  statusCode : Nat
  headers : List (String × String)
deriving Repr, DecidableEq

/-- `res.Header.Get(key)`: first value for the key, or the empty string when
the header is absent. -/
def headerGet (headers : List (String × String)) (key : String) : String :=
  match headers.lookup key with
  | some v => v
  | none => ""

/-- The errors the embedded functions can produce, one constructor per
distinct error site in the Go source. -/
inductive ReqError where
  | invalidURL (u : String)
  | httpError (status : Nat) (problem : Option Problem)
  | invalidContentType (mimeType : String)
  | charsetNotUTF8 (mimeType ch : String)
  | jsonDecodeError (msg : String)
  | unexpectedStatusCode (code : Nat)
  | unexpectedLocation (loc : String)
  | missingEndpoints
  | unknownDirectoryURL
  | unsupportedKeyKind (msg : String)
  | callerError (msg : String)
  | transportError (msg : String)
deriving Repr, DecidableEq

/- ## URL validation (api.go: ValidURL)

`ValidURL` calls the Go standard library `net/url.Parse` and then checks the
scheme.  The parts of `net/url.Parse` that determine the scheme are embedded
here from its algorithm: rejection of control bytes, the `getScheme` scanner,
and lowercasing of the scheme.  Parsing of the remainder (authority, path,
query) never fails in this model; `net/url` additionally rejects e.g. an
invalid port, but no claim in this development depends on such inputs. -/

/-- Modelled from Go `net/url` (standard library): a URL string containing an
ASCII control byte is rejected outright. -/
def stringContainsCTLByte (s : String) : Bool :=
  s.toList.any (fun c => decide (c.toNat < 32) || decide (c.toNat = 127))

/-- Modelled from Go `net/url.getScheme` (standard library): scan for a scheme
prefix `alpha *(alnum / + / - / .) ":"`.  Returns `.error ()` when the string
starts with `":"` (missing protocol scheme), `.ok scheme` when a scheme
terminated by `":"` is found, and `.ok ""` when there is no scheme at all. -/
def getSchemeLoop (acc : List Char) : List Char → Except Unit String
  | [] => .ok ""
  | c :: rest =>
    if c.isAlpha then getSchemeLoop (acc ++ [c]) rest
    else if c.isDigit || c == '+' || c == '-' || c == '.' then
      (if acc.isEmpty then .ok "" else getSchemeLoop (acc ++ [c]) rest)
    else if c == ':' then
      (if acc.isEmpty then .error () else .ok (String.mk acc))
    else .ok ""

/-- Modelled from Go `net/url.Parse` (standard library), scheme-determining
portion: control-byte check, `getScheme`, lowercasing.  Returns the parsed
scheme on success and `none` on a parse error. -/
def urlParse (u : String) : Option String :=
  if stringContainsCTLByte u then none
  else
    match getSchemeLoop [] u.toList with
    | .error _ => none
    | .ok sch => some (strToLower sch)

/-- `ValidURL` from api.go: the URL must parse and its scheme must be
`https`, or `http` when the package-level `TestingAllowHTTP` flag (passed
here as the first argument) is set. -/
def ValidURL (testingAllowHTTP : Bool) (u : String) : Bool :=
  match urlParse u with
  | none => false
  | some scheme => scheme == "https" || (testingAllowHTTP && scheme == "http")

/- ## Status enumerations (types file part_001)

Each Go status type is a string type; its `IsWellFormed`/`IsFinal` methods
switch over string literals, rendered here as boolean comparisons. -/

abbrev AccountStatus := String

/-- `AccountStatus.IsWellFormed` from the types file. -/
def AccountStatus.IsWellFormed (s : AccountStatus) : Bool :=
  s == "valid" || s == "deactivated" || s == "revoked"

/-- `AccountStatus.IsFinal` from the types file. -/
def AccountStatus.IsFinal (s : AccountStatus) : Bool :=
  s == "deactivated" || s == "revoked"

abbrev OrderStatus := String

/-- `OrderStatus.IsWellFormed` from the types file. -/
def OrderStatus.IsWellFormed (s : OrderStatus) : Bool :=
  s == "pending" || s == "ready" || s == "processing" || s == "valid" || s == "invalid"

/-- `OrderStatus.IsFinal` from the types file. -/
def OrderStatus.IsFinal (s : OrderStatus) : Bool :=
  s == "valid" || s == "invalid"

abbrev AuthorizationStatus := String

/-- `AuthorizationStatus.IsWellFormed` from the types file. -/
def AuthorizationStatus.IsWellFormed (s : AuthorizationStatus) : Bool :=
  s == "pending" || s == "valid" || s == "invalid" || s == "deactivated" || s == "revoked"

/-- `AuthorizationStatus.IsFinal` from the types file. -/
def AuthorizationStatus.IsFinal (s : AuthorizationStatus) : Bool :=
  s == "valid" || s == "invalid" || s == "deactivated" || s == "revoked"

abbrev ChallengeStatus := String

/-- `ChallengeStatus.IsWellFormed` from the types file. -/
def ChallengeStatus.IsWellFormed (s : ChallengeStatus) : Bool :=
  s == "pending" || s == "processing" || s == "valid" || s == "invalid"

/-- `ChallengeStatus.IsFinal` from the types file. -/
def ChallengeStatus.IsFinal (s : ChallengeStatus) : Bool :=
  s == "valid" || s == "invalid"

/- ## Nonce pool (nonce.go)

The Go `nonceSource` keeps a `map[string]struct{}` of nonces behind a mutex,
with a lazily initialised pool (the `sync.Once` initialisation only allocates
the empty map and is implicit here).  The map is rendered as a duplicate-free
list; `tryPop`'s `for k := range` picks an arbitrary member of the map, here
the list head.  `GetNonceFunc` performs network I/O and adds nonces as a side
effect of response processing; it is modelled as an optional function from the
current pool to a new pool or an error. -/

structure nonceSource where
  pool : List String
  getNonceFunc : Option (List String → Except String (List String))

/-- `nonceSource.tryPop`: removes and returns some member of the pool, or
returns the empty string (the "no nonce" sentinel) leaving the pool empty. -/
def tryPop (ns : nonceSource) : String × nonceSource :=
  match ns.pool with
  | [] => ("", ns)
  | k :: rest => (k, { ns with pool := rest })

/-- `nonceSource.AddNonce`: a no-op if the nonce is already in the pool. -/
def AddNonce (ns : nonceSource) (nonce : String) : nonceSource :=
  if nonce ∈ ns.pool then ns else { ns with pool := ns.pool ++ [nonce] }

/-- Result of one `Nonce` call: the returned nonce or error, the final pool
state, and whether the refill callback (`GetNonceFunc`) was invoked. -/
structure NonceResult where
  result : Except String String
  state : nonceSource
  callbackInvoked : Bool

/-- `nonceSource.Nonce` from nonce.go: pop; if empty, refill via
`GetNonceFunc` (`obtainNonce` inlined: a missing callback is the
"out of nonces" error) and pop once more; if still empty, fail. -/
def Nonce (ns : nonceSource) : NonceResult :=
  match tryPop ns with
  | (k, ns1) =>
    if k ≠ "" then ⟨.ok k, ns1, false⟩
    else
      match ns1.getNonceFunc with
      | none => ⟨.error "out of nonces - this should never happen", ns1, false⟩
      | some f =>
        match f ns1.pool with
        | .error e => ⟨.error e, ns1, true⟩
        | .ok p2 =>
          match tryPop { ns1 with pool := p2 } with
          | (k2, ns3) =>
            if k2 ≠ "" then ⟨.ok k2, ns3, true⟩
            else ⟨.error "failed to retrieve additional nonce", ns3, true⟩

/- ## Directory retrieval (api.go: getDirectory / getDirectoryActual) -/

/-- `RealmMeta` from api.go. -/
structure RealmMeta where
  termsOfServiceURL : String
  websiteURL : String
  caaIdentities : List String
  externalAccountRequired : Bool
deriving Repr, DecidableEq

/-- `directoryInfo` from api.go. -/
structure directoryInfo where
  newNonce : String
  newAccount : String
  newOrder : String
  newAuthz : String
  revokeCert : String
  keyChange : String
  meta : RealmMeta
deriving Repr, DecidableEq

/-- The endpoint validation performed by `getDirectoryActual`:
`ValidURL(dir.NewNonce) && ValidURL(dir.NewAccount) && ValidURL(dir.NewOrder)`. -/
def dirEndpointsValid (flag : Bool) (d : directoryInfo) : Bool :=
  ValidURL flag d.newNonce && ValidURL flag d.newAccount && ValidURL flag d.newOrder

/-- `getDirectoryActual` from api.go: fail when no directory URL is
configured; otherwise take the outcome of the unsigned GET (`fetch`), and
reject a directory whose required endpoints are not well-formed secure URLs. -/
def getDirectoryActual (flag : Bool) (directoryURL : String)
    (fetch : Except ReqError directoryInfo) : Except ReqError directoryInfo :=
  if directoryURL = "" then .error .unknownDirectoryURL
  else
    match fetch with
    | .error e => .error e
    | .ok dir => if dirEndpointsValid flag dir then .ok dir else .error .missingEndpoints

/-- `getDirectory` from api.go, state passed explicitly: `cached` is the
`atomic.Value` snapshot; a hit returns it unchanged, a miss runs
`getDirectoryActual` and stores the snapshot only on success.  (The
mutex/double-check single-flight is concurrency plumbing around this same
sequential behaviour.)  Returns the call result and the new cache. -/
def getDirectory (flag : Bool) (directoryURL : String) (cached : Option directoryInfo)
    (fetch : Except ReqError directoryInfo) :
    Except ReqError directoryInfo × Option directoryInfo :=
  match cached with
  | some dir => (.ok dir, some dir)
  | none =>
    match getDirectoryActual flag directoryURL fetch with
    | .error e => (.error e, none)
    | .ok dir => (.ok dir, some dir)

/- ## Content-type validation and response decoding (api.go) -/

/-- `validateContentType` from api.go.  `params` is the parameter map
produced by `mime.ParseMediaType` (association list, first match wins). -/
def validateContentType (mimeType : String) (params : List (String × String))
    (expectedMimeType : String) : Except ReqError Unit :=
  if mimeType ≠ expectedMimeType then .error (.invalidContentType mimeType)
  else
    match params.lookup "charset" with
    | some ch =>
      if ch != "" && strToLower ch != "utf-8" then .error (.charsetNotUTF8 mimeType ch)
      else .ok ()
    | none => .ok ()

/-- The response-decoding tail of `doReqOneTry` (api.go), for a caller that
supplied a response destination: validate the content type against
`application/json`, then run the JSON decoder on the destination.
`decodeBody` stands for `json.NewDecoder(res.Body).Decode(responseData)`; it
returns its error status together with the (possibly modified) destination,
since a failing decode may leave the destination partially written.  The
destination is returned unchanged whenever validation fails, because the
decoder is never reached on that path. -/
def doReqDecodePhase {α : Type} (mimeType : String) (params : List (String × String))
    (decodeBody : α → Except String Unit × α) (dest : α) : Except ReqError Unit × α :=
  match validateContentType mimeType params "application/json" with
  | .error e => (.error e, dest)
  | .ok _ =>
    match decodeBody dest with
    | (.error msg, d) => (.error (.jsonDecodeError msg), d)
    | (.ok _, d) => (.ok (), d)

/- ## Signing-algorithm derivation and one request attempt (api.go) -/

/-- A Go `crypto.PrivateKey` as far as `algorithmFromKey` can distinguish it:
an `*rsa.PrivateKey` (of some size), an `*ecdsa.PrivateKey` (with its curve
name, `v.Curve.Params().Name`), or any other dynamic type (with its name). -/
inductive goPrivateKey where
  | rsa (bits : Nat)
  | ecdsa (curveName : String)
  | other (typeName : String)
deriving Repr, DecidableEq

/-- JOSE signature algorithms used by the client. -/
inductive joseAlg where
  | RS256
  | ES256
  | ES384
  | ES512
deriving Repr, DecidableEq

/-- `algorithmFromKey` from api.go (the type switch rendered as successive
comparisons). -/
def algorithmFromKey : goPrivateKey → Except ReqError joseAlg
  | .rsa _ => .ok .RS256
  | .ecdsa name =>
    if name = "P-256" then .ok .ES256
    else if name = "P-384" then .ok .ES384
    else if name = "P-521" then .ok .ES512
    else .error (.unsupportedKeyKind ("unsupported ECDSA curve: " ++ name))
  | .other t => .error (.unsupportedKeyKind ("unsupported private key type: " ++ t))

/-- The `acct` argument of `doReq`/`doReqOneTry`: nil, the
`&noAccountNeeded` sentinel (sign with an embedded JWK), or a real account
carrying its URL and private key. -/
inductive AcctArg where
  | noAcct
  | inlineKey (privKey : Option goPrivateKey)
  | keyed (acctURL : String) (privKey : Option goPrivateKey)
deriving Repr, DecidableEq

/-- The account private key, `acct.PrivateKey`. -/
def AcctArg.privKey : AcctArg → Option goPrivateKey
  | .noAcct => none
  | .inlineKey pk => pk
  | .keyed _ pk => pk

/-- Outcomes of the two effectful steps of one attempt: acquiring an
anti-replay nonce during signing (which may itself perform network I/O) and
the HTTP round trip. -/
structure doReqEnv where
  nonceResult : Except ReqError String
  transportResult : Except ReqError Response

/-- `doReqOneTry` from api.go up to the transport call (the body-decoding
tail is `doReqDecodePhase`): URL validation; for a signed request (non-nil
`requestData`, abstracted to the flag `hasRequestData` — `json.Marshal` of
the payload is assumed to succeed) the account/key resolution, the
signing-algorithm derivation, the `kid` URL validation for key-id signing,
and the nonce acquisition inside `signer.Sign`; then the round trip. -/
def doReqOneTry (flag : Bool) (url : String) (acct : AcctArg)
    (key : Option goPrivateKey) (hasRequestData : Bool) (env : doReqEnv) :
    Except ReqError Response :=
  if ValidURL flag url = false then .error (.invalidURL url)
  else if hasRequestData then
    match acct with
    | .noAcct => .error (.callerError "must provide account object when making signed requests")
    | _ =>
      let kres := match key with
        | some k => some k
        | none => acct.privKey
      match kres with
      | none => .error (.callerError "account key must be specified")
      | some k =>
        match algorithmFromKey k with
        | .error e => .error e
        | .ok _kalg =>
          let kidCheck : Except ReqError Unit :=
            match acct with
            | .keyed aurl _ =>
              if ValidURL flag aurl = false then .error (.invalidURL aurl) else .ok ()
            | _ => .ok ()
          match kidCheck with
          | .error e => .error e
          | .ok _ =>
            match env.nonceResult with
            | .error e => .error e
            | .ok _nonce => env.transportResult
  else env.transportResult

/- ## The retry loop (api.go: doReqAccept) -/

/-- The problem type that (alone) triggers a retry. -/
def badNonceProblemType : String := "urn:ietf:params:acme:error:badNonce"

/-- The retry guard of `doReqAccept`: the error is an `*HTTPError` whose
parsed `Problem` is non-nil and has the bad-nonce type. -/
def isBadNonceError : ReqError → Bool
  | .httpError _ (some p) => p.type == badNonceProblemType
  | _ => false

/-- Retry guard lifted to an attempt outcome. -/
def isBadNonceTry {α : Type} : Except ReqError α → Bool
  | .error e => isBadNonceError e
  | .ok _ => false

/-- `MaxTries` of the `gnet.Backoff` configured in `doReqAccept`. -/
def backoffMaxTries : Nat := 20

/-- The loop of `doReqAccept` from api.go: attempt `i` is a fresh
`doReqOneTry` call (re-signed from scratch, with a freshly acquired nonce);
`tries i` is its outcome.  On a bad-nonce protocol error, `backoff.Sleep()`
permits a retry while attempts remain (`fuel` is the number of retries the
backoff still allows); any other outcome is returned at once.
The backoff object itself lives in the external library
`github.com/hlandau/goutils/net`; modelled from the spec: "bounded
exponential backoff ... bounded total attempts" — `Sleep` returns true,
after sleeping, while fewer than `MaxTries` total attempts have been made
(the delay schedule and jitter have no observable effect here). -/
def doReqAcceptFrom {α : Type} (tries : Nat → Except ReqError α) :
    Nat → Nat → Except ReqError α
  | i, 0 =>
    match tries i with
    | .ok r => .ok r
    | .error e => .error e
  | i, fuel + 1 =>
    match tries i with
    | .ok r => .ok r
    | .error e =>
      if isBadNonceError e then doReqAcceptFrom tries (i + 1) fuel
      else .error e

/-- `doReqAccept` from api.go: run the attempt sequence with the configured
backoff (at most `backoffMaxTries` total attempts). -/
def doReqAccept {α : Type} (tries : Nat → Except ReqError α) : Except ReqError α :=
  doReqAcceptFrom tries 0 (backoffMaxTries - 1)

/- ## Resource creation and account upsert (api-res.go) -/

/-- `Identifier` from the types file. -/
structure Identifier where
  type : String
  value : String
deriving Repr, DecidableEq

/-- The fields of `Order` that `NewOrder` reads or writes. -/
structure Order where
  url : String
  identifiers : List Identifier
deriving Repr, DecidableEq

/-- `NewOrder` from api-res.go, after the directory lookup and the `doReq`
POST to `di.NewOrder` whose outcome is `doReqResult` (on success `doReq` has
already decoded the JSON body into the order): require status 201, require a
Location header that is a valid URL, and populate `order.URL` from it. -/
def NewOrder (flag : Bool) (doReqResult : Except ReqError Response) (order : Order) :
    Except ReqError Order :=
  match doReqResult with
  | .error e => .error e
  | .ok res =>
    if res.statusCode ≠ 201 then .error (.unexpectedStatusCode res.statusCode)
    else
      let loc := headerGet res.headers "Location"
      if ValidURL flag loc = false then .error (.invalidURL loc)
      else .ok { order with url := loc }

/-- The fields of `Account` that `UpsertAccount` reads or writes. -/
structure Account where
  url : String
deriving Repr, DecidableEq

/-- `newAccountCodes` from api-res.go. -/
def newAccountCodes : List Nat := [201, 200]

/-- `updateAccountCodes` from api-res.go. -/
def updateAccountCodes : List Nat := [200]

/-- `isStatusCode` from api-res.go. -/
def isStatusCode (res : Response) (codes : List Nat) : Bool :=
  codes.contains res.statusCode

/-- `UpsertAccount` from api-res.go (the first document in the file, lines
39–99), after the `doReq` POST: `dirResult` is the `getDirectory` outcome,
and `(doReqRes, doReqErr)` the pair returned by `doReq` (which can be a
response together with an error for HTTP error statuses).  Updating is the
`acct.URL != ""` path.  Returns the call's error (`none` = success) and the
resulting account. -/
def UpsertAccount (flag : Bool) (acct : Account)
    (dirResult : Except ReqError directoryInfo)
    (doReqRes : Option Response) (doReqErr : Option ReqError) :
    Option ReqError × Account :=
  match dirResult with
  | .error e => (some e, acct)
  | .ok _di =>
    let updating := acct.url ≠ ""
    let expectCode := if updating then updateAccountCodes else newAccountCodes
    match doReqRes with
    | none => (doReqErr, acct)
    | some res =>
      if isStatusCode res expectCode = false then
        match doReqErr with
        | some e => (some e, acct)
        | none => (some (.unexpectedStatusCode res.statusCode), acct)
      else
        let loc := headerGet res.headers "Location"
        if loc ≠ "" ∧ updating then (some (.unexpectedLocation loc), acct)
        else if ValidURL flag loc = false then (some (.invalidURL loc), acct)
        else (none, { acct with url := loc })

/- ## JSON status decoding (types file part_001)

Each status type's `UnmarshalJSON` first unmarshals the JSON data into a Go
string via `encoding/json` and then rejects values failing `IsWellFormed`.
The `encoding/json` layer (standard library) is modelled for strings without
escape sequences — the enumeration members contain none: the data must be one
double-quoted run of plain characters; anything else (non-string JSON,
trailing data, escapes, control bytes) is a decode error, as it is or may be
in `encoding/json`.  Encoding a string value quotes it. -/

/-- A character that can stand unescaped inside a JSON string literal. -/
def isJSONPlainChar (c : Char) : Bool :=
  c != '"' && c != '\\' && decide (32 ≤ c.toNat)

/-- The body scanner: consume plain characters up to a final closing quote
with nothing after it. -/
def jsonStringBody : List Char → Option (List Char)
  | [] => none
  | c :: rest =>
    if c = '"' then (if rest = [] then some [] else none)
    else if isJSONPlainChar c then (jsonStringBody rest).map (c :: ·)
    else none

/-- Modelled from Go `encoding/json` (standard library), restricted to
escape-free strings: unmarshal JSON data into a string value. -/
def jsonDecodeString (data : String) : Except String String :=
  match data.toList with
  | '"' :: rest =>
    match jsonStringBody rest with
    | some body => .ok (String.mk body)
    | none => .error "invalid JSON string"
  | _ => .error "invalid JSON string"

/-- Modelled from Go `encoding/json` (standard library): marshalling a string
value of one of the status enumerations (all escape-free) wraps it in double
quotes. -/
def jsonEncodeString (s : String) : String := String.mk ('"' :: (s.data ++ ['"']))

/-- `AccountStatus.UnmarshalJSON` from the types file. -/
def AccountStatus.UnmarshalJSON (data : String) : Except String AccountStatus :=
  match jsonDecodeString data with
  | .error e => .error e
  | .ok ss =>
    if AccountStatus.IsWellFormed ss then .ok ss
    else .error ("not a valid status: " ++ ss)

/-- `OrderStatus.UnmarshalJSON` from the types file. -/
def OrderStatus.UnmarshalJSON (data : String) : Except String OrderStatus :=
  match jsonDecodeString data with
  | .error e => .error e
  | .ok ss =>
    if OrderStatus.IsWellFormed ss then .ok ss
    else .error ("not a valid status: " ++ ss)

/-- `AuthorizationStatus.UnmarshalJSON` from the types file. -/
def AuthorizationStatus.UnmarshalJSON (data : String) : Except String AuthorizationStatus :=
  match jsonDecodeString data with
  | .error e => .error e
  | .ok ss =>
    if AuthorizationStatus.IsWellFormed ss then .ok ss
    else .error ("not a valid status: " ++ ss)

/-- `ChallengeStatus.UnmarshalJSON` from the types file. -/
def ChallengeStatus.UnmarshalJSON (data : String) : Except String ChallengeStatus :=
  match jsonDecodeString data with
  | .error e => .error e
  | .ok ss =>
    if ChallengeStatus.IsWellFormed ss then .ok ss
    else .error ("not a valid status: " ++ ss)

/-- Success test for `Except`. -/
def isOkE {ε α : Type} : Except ε α → Bool
  | .ok _ => true
  | .error _ => false

/- ## Theorems -/

/-- C5: for each of the four resource kinds, `IsFinal` is true exactly on
that resource's terminal set — Account: deactivated, revoked; Order: valid,
invalid; Authorization: valid, invalid, deactivated, revoked; Challenge:
valid, invalid — checked on every member of each closed enumeration. -/
theorem IsFinal_tables :
    AccountStatus.IsFinal "valid" = false ∧
    AccountStatus.IsFinal "deactivated" = true ∧
    AccountStatus.IsFinal "revoked" = true ∧
    OrderStatus.IsFinal "pending" = false ∧
    OrderStatus.IsFinal "ready" = false ∧
    OrderStatus.IsFinal "processing" = false ∧
    OrderStatus.IsFinal "valid" = true ∧
    OrderStatus.IsFinal "invalid" = true ∧
    AuthorizationStatus.IsFinal "pending" = false ∧
    AuthorizationStatus.IsFinal "valid" = true ∧
    AuthorizationStatus.IsFinal "invalid" = true ∧
    AuthorizationStatus.IsFinal "deactivated" = true ∧
    AuthorizationStatus.IsFinal "revoked" = true ∧
    ChallengeStatus.IsFinal "pending" = false ∧
    ChallengeStatus.IsFinal "processing" = false ∧
    ChallengeStatus.IsFinal "valid" = true ∧
    ChallengeStatus.IsFinal "invalid" = true := by
  decide

/-- C10: `ValidURL u` holds exactly when `u` parses and its scheme is
`https` (or `http` under the `TestingAllowHTTP` flag); nothing else is
checked, so the empty-host string "https://" is accepted, while the empty
string and any other scheme are rejected. -/
theorem ValidURL_spec :
    (∀ flag u, ValidURL flag u =
       (match urlParse u with
        | some s => s == "https" || (flag && s == "http")
        | none => false)) ∧
    (∀ flag u s, urlParse u = some s → s ≠ "https" → s ≠ "http" →
       ValidURL flag u = false) ∧
    (ValidURL false "https://" = true ∧
     ValidURL true "https://" = true ∧
     ValidURL false "" = false ∧
     ValidURL true "" = false ∧
     ValidURL false "http://example.com" = false ∧
     ValidURL true "http://example.com" = true ∧
     ValidURL false "ftp://example.com" = false) := by
  refine ⟨fun flag u => by cases h : urlParse u <;> simp [ValidURL, h], ?_, by decide⟩
  intro flag u s h h1 h2
  simp only [ValidURL, h]
  simp [h1, h2]

/-- C10 witness: the general rejection clause of `ValidURL_spec` applied at
the concrete scheme "ftp". -/
theorem ValidURL_spec_witness : ValidURL true "ftp://example.com" = false :=
  ValidURL_spec.2.1 true "ftp://example.com" "ftp" rfl
    (by decide) (by decide)

/-- C3 counterexample: the claim says any charset parameter other than utf-8
fails, but a present-but-empty charset parameter is tolerated by
`validateContentType` and decoding proceeds. -/
theorem validateContentType_empty_charset :
    validateContentType "application/json" [("charset", "")] "application/json" = .ok () ∧
    ("" : String) ≠ "utf-8" ∧ strToLower "" ≠ "utf-8" := by
  refine ⟨by decide, by decide, by decide⟩

/-- C3 (amended): decoding proceeds only if the media type is exactly the
expected `application/json`, where a charset parameter that is empty or equal
to utf-8 case-insensitively is tolerated; any other charset or media type
fails with a content-type error, and on that failure path the destination is
returned unmodified, the decoder never having run. -/
theorem validateContentType_spec {α : Type} (mt : String)
    (params : List (String × String)) (decodeBody : α → Except String Unit × α)
    (dest : α) :
    (validateContentType mt params "application/json" = .ok () ↔
       (mt = "application/json" ∧
        ∀ ch, params.lookup "charset" = some ch → ch = "" ∨ strToLower ch = "utf-8")) ∧
    (∀ e, validateContentType mt params "application/json" = .error e →
       doReqDecodePhase mt params decodeBody dest = (.error e, dest)) ∧
    (validateContentType "application/json" [("charset", "utf-8")] "application/json" = .ok () ∧
     validateContentType "application/json" [("charset", "UTF-8")] "application/json" = .ok () ∧
     validateContentType "text/plain" [] "application/json" =
       .error (.invalidContentType "text/plain") ∧
     validateContentType "application/json" [("charset", "latin1")] "application/json" =
       .error (.charsetNotUTF8 "application/json" "latin1")) := by
  refine ⟨?_, ?_, by decide⟩
  · unfold validateContentType
    by_cases hmt : mt = "application/json"
    · subst hmt
      simp only [ne_eq, not_true_eq_false, if_neg, ite_false]
      cases hch : List.lookup "charset" params with
      | none => simp
      | some ch =>
        by_cases hche : ch = ""
        · subst hche; simp
        · by_cases hlo : strToLower ch = "utf-8"
          · simp [hche, hlo]
          · simp [hche, hlo]
    · simp [hmt]
  · intro e h
    simp [doReqDecodePhase, h]

/-- C3 witness: the failure clause of `validateContentType_spec` at a
mismatched media type, with a decoder that would have modified the
destination. -/
theorem validateContentType_spec_witness :
    doReqDecodePhase "text/plain" [] (fun n : Nat => (.ok (), n + 1)) 0 =
      (.error (.invalidContentType "text/plain"), 0) :=
  (validateContentType_spec "text/plain" [] (fun n : Nat => (.ok (), n + 1)) 0).2.1
    (.invalidContentType "text/plain") (by decide)

/-- C4: `NewOrder` succeeds exactly when the `doReq` POST succeeded with
status 201 and a Location header that is a valid URL, in which case the
order's URL is set to that Location; a `doReq` error, any other status, or a
missing/invalid Location each yield the corresponding error with the order's
URL untouched. -/
theorem NewOrder_spec (flag : Bool) (r : Except ReqError Response) (ord : Order) :
    ((∃ ord2, NewOrder flag r ord = .ok ord2) ↔
       (∃ res, r = .ok res ∧ res.statusCode = 201 ∧
          ValidURL flag (headerGet res.headers "Location") = true)) ∧
    (∀ res, r = .ok res → res.statusCode = 201 →
       ValidURL flag (headerGet res.headers "Location") = true →
       NewOrder flag r ord = .ok { ord with url := headerGet res.headers "Location" }) ∧
    (∀ e, r = .error e → NewOrder flag r ord = .error e) ∧
    (∀ res, r = .ok res → res.statusCode ≠ 201 →
       NewOrder flag r ord = .error (.unexpectedStatusCode res.statusCode)) ∧
    (∀ res, r = .ok res → res.statusCode = 201 →
       ValidURL flag (headerGet res.headers "Location") = false →
       NewOrder flag r ord = .error (.invalidURL (headerGet res.headers "Location"))) := by
  refine ⟨?_, ?_, ?_, ?_, ?_⟩
  · cases r with
    | error e => simp [NewOrder]
    | ok res =>
      by_cases h201 : res.statusCode = 201
      · by_cases hv : ValidURL flag (headerGet res.headers "Location") = true
        · simp [NewOrder, h201, hv]
        · simp [NewOrder, h201, eq_false_of_ne_true hv]
      · simp [NewOrder, h201]
  · intro res hr h201 hv
    subst hr
    simp [NewOrder, h201, hv]
  · intro e hr
    subst hr
    rfl
  · intro res hr h201
    subst hr
    simp [NewOrder, h201]
  · intro res hr h201 hv
    subst hr
    simp [NewOrder, h201, hv]

/-- C4 witness: the spec scenario — POSTing an order for `dns example.com`
answered with 201 and `Location: https://ca.example/order/1` populates the
order's URL from the Location header. -/
theorem NewOrder_spec_witness :
    NewOrder false (.ok ⟨201, [("Location", "https://ca.example/order/1")]⟩)
        ⟨"", [⟨"dns", "example.com"⟩]⟩ =
      .ok ⟨"https://ca.example/order/1", [⟨"dns", "example.com"⟩]⟩ :=
  (NewOrder_spec false (.ok ⟨201, [("Location", "https://ca.example/order/1")]⟩)
      ⟨"", [⟨"dns", "example.com"⟩]⟩).2.1
    ⟨201, [("Location", "https://ca.example/order/1")]⟩ rfl rfl (by decide)

/-- `ValidURL` rejects the empty string under either flag value. -/
theorem ValidURL_empty_false (flag : Bool) : ValidURL flag "" = false := by
  cases flag <;> decide

/-- C2 counterexample: the empty string is `tryPop`'s "pool empty" sentinel,
so a pool whose member is the empty string is treated as exhausted —
`acquire` after `release("")` on an otherwise-empty pool does not return the
released token without refill, but errors (no callback configured) or invokes
the callback and consumes its nonce instead. -/
theorem Nonce_empty_string_token :
    (AddNonce ⟨[], none⟩ "").pool = [""] ∧
    ([""] : List String) ≠ [] ∧
    (Nonce (AddNonce ⟨[], none⟩ "")).result =
      .error "out of nonces - this should never happen" ∧
    (Nonce ⟨[""], some fun p => .ok p⟩).result =
      .error "failed to retrieve additional nonce" ∧
    (Nonce ⟨[""], some fun p => .ok p⟩).callbackInvoked = true :=
  ⟨rfl, by decide, rfl, rfl, rfl⟩

/-- C2 (amended): provided every pool member is a non-empty string (which
normal operation guarantees, nonces being harvested only from non-empty
`Replay-Nonce` headers, while the empty string serves as the internal
"pool empty" sentinel): a non-empty pool yields a member, removed, without
invoking the refill callback; on an empty pool the callback is invoked once
and one more pop is attempted; exhaustion (no callback, callback error, or
callback leaving the pool empty) is an error; and acquire after `release(t)`
on an otherwise-empty pool returns `t` without invoking the callback. -/
theorem Nonce_spec (ns : nonceSource) (hpool : ∀ t ∈ ns.pool, t ≠ "") :
    (∀ t rest, ns.pool = t :: rest →
       (Nonce ns).result = .ok t ∧ (Nonce ns).state.pool = rest ∧
       (Nonce ns).callbackInvoked = false) ∧
    (ns.pool = [] → ns.getNonceFunc = none →
       (Nonce ns).result = .error "out of nonces - this should never happen" ∧
       (Nonce ns).callbackInvoked = false) ∧
    (∀ f e, ns.pool = [] → ns.getNonceFunc = some f → f [] = .error e →
       (Nonce ns).result = .error e ∧ (Nonce ns).callbackInvoked = true) ∧
    (∀ f, ns.pool = [] → ns.getNonceFunc = some f → f [] = .ok [] →
       (Nonce ns).result = .error "failed to retrieve additional nonce" ∧
       (Nonce ns).callbackInvoked = true) ∧
    (∀ f t rest, ns.pool = [] → ns.getNonceFunc = some f → f [] = .ok (t :: rest) →
       t ≠ "" →
       (Nonce ns).result = .ok t ∧ (Nonce ns).callbackInvoked = true) ∧
    (∀ t, t ≠ "" →
       (Nonce (AddNonce ⟨[], ns.getNonceFunc⟩ t)).result = .ok t ∧
       (Nonce (AddNonce ⟨[], ns.getNonceFunc⟩ t)).callbackInvoked = false) := by
  obtain ⟨pool, gf⟩ := ns
  refine ⟨?_, ?_, ?_, ?_, ?_, ?_⟩
  · intro t rest hp
    cases hp
    have ht : t ≠ "" := hpool t (List.mem_cons_self t rest)
    simp [Nonce, tryPop, ht]
  · intro hp hg
    cases hp
    cases hg
    simp [Nonce, tryPop]
  · intro f e hp hg hf
    cases hp
    cases hg
    simp [Nonce, tryPop, hf]
  · intro f hp hg hf
    cases hp
    cases hg
    simp [Nonce, tryPop, hf]
  · intro f t rest hp hg hf ht
    cases hp
    cases hg
    simp [Nonce, tryPop, hf, ht]
  · intro t ht
    have : AddNonce ⟨[], gf⟩ t = ⟨[t], gf⟩ := by simp [AddNonce]
    rw [this]
    simp [Nonce, tryPop, ht]

/-- C2 witness: `Nonce_spec` on the one-member pool `["a"]` with no
callback. -/
theorem Nonce_spec_witness :
    (Nonce ⟨["a"], none⟩).result = .ok "a" ∧
    (Nonce ⟨["a"], none⟩).state.pool = [] ∧
    (Nonce ⟨["a"], none⟩).callbackInvoked = false :=
  (Nonce_spec ⟨["a"], none⟩ (by decide)).1 "a" [] rfl

/-- On success, `getDirectoryActual` has checked the required endpoints. -/
theorem getDirectoryActual_ok_valid (flag : Bool) (url : String)
    (fetch : Except ReqError directoryInfo) (dir : directoryInfo)
    (h : getDirectoryActual flag url fetch = .ok dir) :
    dirEndpointsValid flag dir = true := by
  unfold getDirectoryActual at h
  by_cases hu : url = ""
  · simp [hu] at h
  · simp only [hu, if_false, ite_false] at h
    cases fetch with
    | error e => simp at h
    | ok d =>
      by_cases hv : dirEndpointsValid flag d = true
      · simp [hv] at h
        cases h
        exact hv
      · simp [hv] at h

/-- C8: every snapshot the directory cache stores has passed the
endpoint-validation invariant (well-formed secure newNonce, newAccount and
newOrder URLs); a fetched directory failing it is rejected with the
missing-endpoints error and nothing is cached; and once a snapshot is cached,
every later `getDirectory` call returns that same whole snapshot unchanged,
whatever a fresh fetch would have produced. -/
theorem getDirectory_spec (flag : Bool) (url : String)
    (fetch : Except ReqError directoryInfo) :
    (∀ d, (getDirectory flag url none fetch).2 = some d →
       dirEndpointsValid flag d = true ∧ (getDirectory flag url none fetch).1 = .ok d) ∧
    (∀ d, fetch = .ok d → dirEndpointsValid flag d = false → url ≠ "" →
       getDirectory flag url none fetch = (.error .missingEndpoints, none)) ∧
    (∀ d, getDirectory flag url (some d) fetch = (.ok d, some d)) := by
  refine ⟨?_, ?_, ?_⟩
  · intro d h
    cases hact : getDirectoryActual flag url fetch with
    | error e => simp [getDirectory, hact] at h
    | ok dir =>
      simp only [getDirectory, hact, Option.some.injEq] at h
      cases h
      exact ⟨getDirectoryActual_ok_valid flag url fetch d hact, by simp [getDirectory, hact]⟩
  · intro d hf hv hu
    cases hf
    simp [getDirectory, getDirectoryActual, hu, hv]
  · intro d
    rfl

/-- C8 witness: a cache hit returns the cached snapshot even though the
would-be fetch errors. -/
theorem getDirectory_spec_witness :
    getDirectory false "https://ca.example/dir"
        (some ⟨"https://n", "https://a", "https://o", "", "", "", ⟨"", "", [], false⟩⟩)
        (.error .unknownDirectoryURL) =
      (.ok ⟨"https://n", "https://a", "https://o", "", "", "", ⟨"", "", [], false⟩⟩,
       some ⟨"https://n", "https://a", "https://o", "", "", "", ⟨"", "", [], false⟩⟩) :=
  (getDirectory_spec false "https://ca.example/dir" (.error .unknownDirectoryURL)).2.2
    ⟨"https://n", "https://a", "https://o", "", "", "", ⟨"", "", [], false⟩⟩

/-- C9: with `acct.URL` non-empty (the account-update path) `UpsertAccount`
never returns success: beyond the propagated `doReq`/directory errors and the
status check, a 200 response with a Location header hits the
unexpected-Location error, and one without hits the `ValidURL` check on the
empty Location string and yields the invalid-URL error. -/
theorem UpsertAccount_update_always_errors (flag : Bool) (acct : Account)
    (dirResult : Except ReqError directoryInfo) (res? : Option Response)
    (err? : Option ReqError)
    (hurl : acct.url ≠ "")
    (hnn : ¬(res? = none ∧ err? = none)) :
    (UpsertAccount flag acct dirResult res? err?).1 ≠ none ∧
    (∀ di res, dirResult = .ok di → res? = some res → err? = none →
       isStatusCode res updateAccountCodes = true →
       ((headerGet res.headers "Location" ≠ "" →
          (UpsertAccount flag acct dirResult res? err?).1 =
            some (.unexpectedLocation (headerGet res.headers "Location"))) ∧
        (headerGet res.headers "Location" = "" →
          (UpsertAccount flag acct dirResult res? err?).1 =
            some (.invalidURL "")))) := by
  constructor
  · cases dirResult with
    | error e => simp [UpsertAccount]
    | ok di =>
      cases hres : res? with
      | none =>
        have herr : err? ≠ none := fun h => hnn ⟨hres, h⟩
        simpa [UpsertAccount, hres] using herr
      | some res =>
        by_cases hsc : isStatusCode res updateAccountCodes = true
        · by_cases hloc : headerGet res.headers "Location" = ""
          · simp [UpsertAccount, hres, hurl, hsc, hloc, ValidURL_empty_false]
          · simp [UpsertAccount, hres, hurl, hsc, hloc]
        · cases err? with
          | none => simp [UpsertAccount, hres, hurl, hsc]
          | some e => simp [UpsertAccount, hres, hurl, hsc]
  · intro di res hdi hres herr hsc
    cases hdi
    cases hres
    cases herr
    constructor
    · intro hloc
      simp [UpsertAccount, hurl, hsc, hloc]
    · intro hloc
      simp [UpsertAccount, hurl, hsc, hloc, ValidURL_empty_false]

/-- C9 witness: a 200 update response with no Location header still fails,
with the invalid-URL error on the empty Location string. -/
theorem UpsertAccount_update_always_errors_witness :
    (UpsertAccount false ⟨"https://ca.example/acct/1"⟩
        (.ok ⟨"https://n", "https://a", "https://o", "", "", "", ⟨"", "", [], false⟩⟩)
        (some ⟨200, []⟩) none).1 = some (.invalidURL "") :=
  ((UpsertAccount_update_always_errors false ⟨"https://ca.example/acct/1"⟩
      (.ok ⟨"https://n", "https://a", "https://o", "", "", "", ⟨"", "", [], false⟩⟩)
      (some ⟨200, []⟩) none (by decide) (by simp)).2
    ⟨"https://n", "https://a", "https://o", "", "", "", ⟨"", "", [], false⟩⟩
    ⟨200, []⟩ rfl rfl rfl (by decide)).2 rfl

/-- Behaviour of `doReqAcceptFrom`: it returns the outcome of the first
attempt that is not a bad-nonce protocol error, every earlier attempt having
been a bad-nonce error, stopping after at most `fuel` retries. -/
theorem doReqAcceptFrom_spec {α : Type} (tries : Nat → Except ReqError α) :
    ∀ fuel i, ∃ d, d ≤ fuel ∧ doReqAcceptFrom tries i fuel = tries (i + d) ∧
      (∀ j, j < d → isBadNonceTry (tries (i + j)) = true) ∧
      (d < fuel → isBadNonceTry (tries (i + d)) = false) := by
  intro fuel
  induction fuel with
  | zero =>
    intro i
    refine ⟨0, Nat.le_refl 0, ?_, ?_, ?_⟩
    · cases h : tries i with
      | ok r => simp [doReqAcceptFrom, h]
      | error e => simp [doReqAcceptFrom, h]
    · intro j hj
      exact absurd hj (Nat.not_lt_zero j)
    · intro hlt
      exact absurd hlt (Nat.not_lt_zero 0)
  | succ f ih =>
    intro i
    cases h : tries i with
    | ok r =>
      refine ⟨0, Nat.zero_le _, by simp [doReqAcceptFrom, h], ?_, ?_⟩
      · intro j hj
        exact absurd hj (Nat.not_lt_zero j)
      · intro _
        simp [isBadNonceTry, h]
    | error e =>
      by_cases hb : isBadNonceError e = true
      · obtain ⟨d, hd, hv, hpre, hlast⟩ := ih (i + 1)
        refine ⟨d + 1, by omega, ?_, ?_, ?_⟩
        · have hstep : doReqAcceptFrom tries i (f + 1) = doReqAcceptFrom tries (i + 1) f := by
            simp [doReqAcceptFrom, h, hb]
          rw [hstep, hv]
          congr 1
          omega
        · intro j hj
          cases j with
          | zero => simp [isBadNonceTry, h, hb]
          | succ j' =>
            have hj' := hpre j' (by omega)
            have heq : i + 1 + j' = i + (j' + 1) := by omega
            rw [heq] at hj'
            exact hj'
        · intro hlt
          have hl := hlast (by omega)
          have heq : i + 1 + d = i + (d + 1) := by omega
          rw [heq] at hl
          exact hl
      · refine ⟨0, Nat.zero_le _, by simp [doReqAcceptFrom, h, hb], ?_, ?_⟩
        · intro j hj
          exact absurd hj (Nat.not_lt_zero j)
        · intro _
          simp only [Nat.add_zero, isBadNonceTry, h]
          exact eq_false_of_ne_true hb

/-- C1: `doReqAccept` returns the outcome of some attempt `k` among at most
20 total attempts (the configured backoff bound); every attempt before `k`
failed with a protocol error whose parsed Problem has the badNonce type (each
retry being a fresh, re-signed `doReqOneTry`), and unless the attempt budget
was exhausted at `k`, attempt `k` itself is not a bad-nonce error — i.e. any
success, any other protocol error, content-type error or transport failure is
returned immediately without retry. -/
theorem doReqAccept_retry_policy {α : Type} (tries : Nat → Except ReqError α) :
    ∃ k, k < backoffMaxTries ∧ doReqAccept tries = tries k ∧
      (∀ j, j < k → isBadNonceTry (tries j) = true) ∧
      (k + 1 < backoffMaxTries → isBadNonceTry (tries k) = false) := by
  obtain ⟨d, hd, hv, hpre, hlast⟩ := doReqAcceptFrom_spec tries (backoffMaxTries - 1) 0
  have h20 : backoffMaxTries = 20 := rfl
  refine ⟨d, by omega, ?_, ?_, ?_⟩
  · simpa using hv
  · intro j hj
    simpa using hpre j hj
  · intro hlt
    have := hlast (by omega)
    simpa using this

/-- C1 witness: `doReqAccept_retry_policy` on a transport that succeeds at
once. -/
theorem doReqAccept_retry_policy_witness :
    ∃ k, k < backoffMaxTries ∧
      doReqAccept (fun _ => (.ok 7 : Except ReqError Nat)) =
        (fun _ => (.ok 7 : Except ReqError Nat)) k ∧
      (∀ j, j < k → isBadNonceTry ((fun _ => (.ok 7 : Except ReqError Nat)) j) = true) ∧
      (k + 1 < backoffMaxTries →
        isBadNonceTry ((fun _ => (.ok 7 : Except ReqError Nat)) k) = false) :=
  doReqAccept_retry_policy (fun _ => .ok 7)

/-- Decoding the quoted form of a string can only return that string. -/
theorem jsonStringBody_append_quote (l : List Char) :
    ∀ r, jsonStringBody (l ++ ['"']) = some r → r = l := by
  induction l with
  | nil =>
    intro r h
    simp [jsonStringBody] at h
    exact h
  | cons c l' ih =>
    intro r h
    by_cases hc : c = '"'
    · subst hc
      simp [jsonStringBody] at h
    · by_cases hp : isJSONPlainChar c = true
      · simp only [List.cons_append, jsonStringBody, hc, if_false, ite_false, hp,
          if_true, ite_true, Option.map_eq_some'] at h
        obtain ⟨body, hbody, hr⟩ := h
        rw [← hr, ih body hbody]
      · simp [jsonStringBody, hc, hp] at h

/-- `jsonDecodeString` inverts `jsonEncodeString` up to equality. -/
theorem jsonDecodeString_encode (ss r : String)
    (h : jsonDecodeString (jsonEncodeString ss) = .ok r) : r = ss := by
  unfold jsonDecodeString jsonEncodeString at h
  simp only [String.toList] at h
  cases hb : jsonStringBody (ss.data ++ ['"']) with
  | none => rw [hb] at h; simp at h
  | some body =>
    rw [hb] at h
    simp only [Except.ok.injEq] at h
    have hbody := jsonStringBody_append_quote ss.data body hb
    rw [← h, hbody]

/-- C6: for each of the four status enumerations, JSON-decoding the encoding
of any string outside the closed enumeration fails rather than being
accepted, and every member of each enumeration round-trips through encode
then decode to itself. -/
theorem statusJSON_spec :
    (∀ ss, AccountStatus.IsWellFormed ss = false →
       isOkE (AccountStatus.UnmarshalJSON (jsonEncodeString ss)) = false) ∧
    (∀ ss, OrderStatus.IsWellFormed ss = false →
       isOkE (OrderStatus.UnmarshalJSON (jsonEncodeString ss)) = false) ∧
    (∀ ss, AuthorizationStatus.IsWellFormed ss = false →
       isOkE (AuthorizationStatus.UnmarshalJSON (jsonEncodeString ss)) = false) ∧
    (∀ ss, ChallengeStatus.IsWellFormed ss = false →
       isOkE (ChallengeStatus.UnmarshalJSON (jsonEncodeString ss)) = false) ∧
    (AccountStatus.UnmarshalJSON (jsonEncodeString "valid") = .ok "valid" ∧
     AccountStatus.UnmarshalJSON (jsonEncodeString "deactivated") = .ok "deactivated" ∧
     AccountStatus.UnmarshalJSON (jsonEncodeString "revoked") = .ok "revoked" ∧
     OrderStatus.UnmarshalJSON (jsonEncodeString "pending") = .ok "pending" ∧
     OrderStatus.UnmarshalJSON (jsonEncodeString "ready") = .ok "ready" ∧
     OrderStatus.UnmarshalJSON (jsonEncodeString "processing") = .ok "processing" ∧
     OrderStatus.UnmarshalJSON (jsonEncodeString "valid") = .ok "valid" ∧
     OrderStatus.UnmarshalJSON (jsonEncodeString "invalid") = .ok "invalid" ∧
     AuthorizationStatus.UnmarshalJSON (jsonEncodeString "pending") = .ok "pending" ∧
     AuthorizationStatus.UnmarshalJSON (jsonEncodeString "valid") = .ok "valid" ∧
     AuthorizationStatus.UnmarshalJSON (jsonEncodeString "invalid") = .ok "invalid" ∧
     AuthorizationStatus.UnmarshalJSON (jsonEncodeString "deactivated") = .ok "deactivated" ∧
     AuthorizationStatus.UnmarshalJSON (jsonEncodeString "revoked") = .ok "revoked" ∧
     ChallengeStatus.UnmarshalJSON (jsonEncodeString "pending") = .ok "pending" ∧
     ChallengeStatus.UnmarshalJSON (jsonEncodeString "processing") = .ok "processing" ∧
     ChallengeStatus.UnmarshalJSON (jsonEncodeString "valid") = .ok "valid" ∧
     ChallengeStatus.UnmarshalJSON (jsonEncodeString "invalid") = .ok "invalid") := by
  refine ⟨?_, ?_, ?_, ?_, by decide⟩
  · intro ss hwf
    unfold AccountStatus.UnmarshalJSON
    cases hd : jsonDecodeString (jsonEncodeString ss) with
    | error e => simp [isOkE]
    | ok ss2 =>
      rw [jsonDecodeString_encode ss ss2 hd]
      simp [hwf, isOkE]
  · intro ss hwf
    unfold OrderStatus.UnmarshalJSON
    cases hd : jsonDecodeString (jsonEncodeString ss) with
    | error e => simp [isOkE]
    | ok ss2 =>
      rw [jsonDecodeString_encode ss ss2 hd]
      simp [hwf, isOkE]
  · intro ss hwf
    unfold AuthorizationStatus.UnmarshalJSON
    cases hd : jsonDecodeString (jsonEncodeString ss) with
    | error e => simp [isOkE]
    | ok ss2 =>
      rw [jsonDecodeString_encode ss ss2 hd]
      simp [hwf, isOkE]
  · intro ss hwf
    unfold ChallengeStatus.UnmarshalJSON
    cases hd : jsonDecodeString (jsonEncodeString ss) with
    | error e => simp [isOkE]
    | ok ss2 =>
      rw [jsonDecodeString_encode ss ss2 hd]
      simp [hwf, isOkE]

/-- C6 witness: the rejection clause of `statusJSON_spec` at the out-of-set
string "bogus". -/
theorem statusJSON_spec_witness :
    isOkE (AccountStatus.UnmarshalJSON (jsonEncodeString "bogus")) = false :=
  statusJSON_spec.1 "bogus" (by decide)

/-- C7: signing-algorithm derivation is a pure function of the key type —
RSA keys map to RS256; ECDSA keys map to ES256/ES384/ES512 by curve
P-256/P-384/P-521; any other curve or key type is an unsupported-key error —
and when it fails inside `doReqOneTry`, the failure is returned identically
for every possible nonce-acquisition and transport outcome, i.e. before any
network I/O. -/
theorem algorithmFromKey_spec :
    (∀ n, algorithmFromKey (.rsa n) = .ok .RS256) ∧
    algorithmFromKey (.ecdsa "P-256") = .ok .ES256 ∧
    algorithmFromKey (.ecdsa "P-384") = .ok .ES384 ∧
    algorithmFromKey (.ecdsa "P-521") = .ok .ES512 ∧
    (∀ name, name ≠ "P-256" → name ≠ "P-384" → name ≠ "P-521" →
       algorithmFromKey (.ecdsa name) =
         .error (.unsupportedKeyKind ("unsupported ECDSA curve: " ++ name))) ∧
    (∀ t, algorithmFromKey (.other t) =
       .error (.unsupportedKeyKind ("unsupported private key type: " ++ t))) ∧
    (∀ flag url acct key k e env,
       acct ≠ .noAcct →
       (match key with | some kk => some kk | none => acct.privKey) = some k →
       algorithmFromKey k = .error e →
       ValidURL flag url = true →
       doReqOneTry flag url acct key true env = .error e) := by
  refine ⟨fun n => rfl, by decide, by decide, by decide, ?_, fun t => rfl, ?_⟩
  · intro name h1 h2 h3
    simp [algorithmFromKey, h1, h2, h3]
  · intro flag url acct key k e env hacct hkres halg hv
    cases acct with
    | noAcct => exact absurd rfl hacct
    | inlineKey pk =>
      cases key with
      | some kk =>
        simp only [Option.some.injEq] at hkres
        subst hkres
        simp [doReqOneTry, hv, halg]
      | none =>
        simp only [AcctArg.privKey] at hkres
        simp [doReqOneTry, AcctArg.privKey, hv, hkres, halg]
    | keyed aurl pk =>
      cases key with
      | some kk =>
        simp only [Option.some.injEq] at hkres
        subst hkres
        simp [doReqOneTry, hv, halg]
      | none =>
        simp only [AcctArg.privKey] at hkres
        simp [doReqOneTry, AcctArg.privKey, hv, hkres, halg]

/-- C7 witness: an unsupported ECDSA curve fails with the unsupported-key
error for a concrete environment, without consulting nonce or transport. -/
theorem algorithmFromKey_spec_witness :
    doReqOneTry false "https://ca.example/dir" (.inlineKey none)
        (some (.ecdsa "P-111")) true ⟨.ok "n", .ok ⟨200, []⟩⟩ =
      .error (.unsupportedKeyKind ("unsupported ECDSA curve: " ++ "P-111")) :=
  algorithmFromKey_spec.2.2.2.2.2.2 false "https://ca.example/dir" (.inlineKey none)
    (some (.ecdsa "P-111")) (.ecdsa "P-111")
    (.unsupportedKeyKind ("unsupported ECDSA curve: " ++ "P-111"))
    ⟨.ok "n", .ok ⟨200, []⟩⟩ (by decide) rfl (by decide) (by decide)

end AcmeApi
